import Mathlib

/-!
Catapult: host lifecycle and node connection pool.

A shallow embedding of `pkg/node/node_connections.go` (the connection pool
`Connections`) and of `pkg/services/host.go` (the hosts service), followed by
the properties established about them.

Conventions of the embedding.

* The outside world (gRPC, the hosts repository, the Ansible installer) is a
  record of answer functions: what a call returns is fixed by its arguments.
* Calls made to the outside world are recorded in ghost lists carried next to
  the Go state (`dials`, `closed`, `added`, `updated`, `installs`) or returned
  next to the Go result (the lookups of `Validate`); they are written only by
  the embedding and never read by the embedded code.
* The busy loop of `CreateConnection` takes a bound on the number of
  `GetState` calls it may make; `none` means that the bound was reached
  before the loop ended.
* Logging calls have no effect on the values studied and are left out.
-/

namespace Catapult

/-! ## Values shared by the packages -/

/-- Go `error` values: the two sentinels of package `services` and errors made
from a message (`fmt.Errorf`, errors of collaborators). A nil error is `none`
of `Option Error`. -/
inductive Error where
  | ErrNotFound
  | ErrAlreadyExists
  | errorf (msg : String)
  deriving DecidableEq, Repr

/-- A `uuid.UUID`, sixteen bytes read as one number. -/
abbrev UUID := Nat

/-- The value `uuid.Nil`, all bytes zero. -/
def uuid.Nil : UUID := 0

/-- Modelled from the spec: the type `model.Status` (package `pkg/model` is not
among the sources); the four statuses a host can have. -/
inductive model.Status where
  | DOWN
  | INSTALLING
  | UP
  | FAILED
  deriving DecidableEq, Repr

/-- Modelled from the spec: the record `model.Host` (package `pkg/model` is not
among the sources), with the fields `host.go` reads and writes. -/
structure model.Host where
  ID : UUID
  Name : String
  Address : String
  Status : model.Status
  User : String
  Password : String
  Port : Int
  deriving DecidableEq, Repr

/-- The values of `connectivity.State` of gRPC. -/
inductive connectivity.State where
  | Idle
  | Connecting
  | Ready
  | TransientFailure
  | Shutdown
  deriving DecidableEq, Repr

/-- A `*grpc.ClientConn`, identified by a number. -/
abbrev ClientConn := Nat

/-- The gRPC library as seen by the pool: the answer of `grpc.Dial` for an
address, the answer of the `k`-th `GetState` call on a connection, and the
answer of `Close` on a connection. -/
structure Grpc where
  Dial : String → Except Error ClientConn
  GetState : ClientConn → Nat → connectivity.State
  Close : ClientConn → Option Error

/-! ## `sync.Map`, as an association list -/

/-- The method `Load` of `sync.Map`. -/
def syncMap.Load (m : List (UUID × ClientConn)) (key : UUID) : Option ClientConn :=
  m.lookup key

/-- The method `Delete` of `sync.Map`. -/
def syncMap.Delete (m : List (UUID × ClientConn)) (key : UUID) : List (UUID × ClientConn) :=
  m.filter (fun e => e.1 != key)

/-- The method `Store` of `sync.Map`: the entry of `key`, if any, is replaced. -/
def syncMap.Store (m : List (UUID × ClientConn)) (key : UUID) (value : ClientConn) :
    List (UUID × ClientConn) :=
  (key, value) :: syncMap.Delete m key

/-- The method `Range` of `sync.Map`: `f` is called on every entry in turn, on
an accumulator; the iteration stops when `f` answers `false`. -/
def syncMap.Range {σ : Type} (f : UUID → ClientConn → σ → σ × Bool) :
    List (UUID × ClientConn) → σ → σ
  | [], acc => acc
  | (key, value) :: rest, acc =>
    match f key value acc with
    | (acc', true) => syncMap.Range f rest acc'
    | (acc', false) => acc'

/-! ## `pkg/node/node_connections.go` -/

/-- The struct `Connections`: the map `nodeToConn`, and two ghost lists, the
`CreateConnection` calls made (node and address dialled) and the connections
on which `Close` was called, oldest first. -/
structure Connections where
  nodeToConn : List (UUID × ClientConn)
  dials : List (UUID × String)
  closed : List ClientConn
  deriving DecidableEq, Repr

/-- The function `NewNodeConnectionManager`. -/
def NewNodeConnectionManager : Connections :=
  { nodeToConn := [], dials := [], closed := [] }

/-- The `for` loop of `CreateConnection`: `poll` is the number of `GetState`
calls made so far, the first argument bounds the calls still allowed. -/
def CreateConnection.loop (env : Grpc) (nodeID : UUID) (conn : ClientConn) :
    Nat → Nat → Connections → Option Connections
  | 0, _, _ => none
  | fuel + 1, poll, n =>
    if env.GetState conn poll = connectivity.State.Ready then
      some { n with nodeToConn := syncMap.Store n.nodeToConn nodeID conn }
    else
      CreateConnection.loop env nodeID conn fuel (poll + 1) n

/-- The method `Connections.CreateConnection`. -/
def CreateConnection (env : Grpc) (fuel : Nat) (n : Connections) (nodeID : UUID)
    (address : String) : Option (Except Error ClientConn × Connections) :=
  let n := { n with dials := n.dials ++ [(nodeID, address)] }
  match env.Dial address with
  | .error err => some (.error err, n)
  | .ok conn =>
    match CreateConnection.loop env nodeID conn fuel 0 n with
    | none => none
    | some n' => some (.ok conn, n')

/-- The method `Connections.GetConnection`; `none` is the nil connection. -/
def GetConnection (n : Connections) (nodeID : UUID) : Option ClientConn :=
  match syncMap.Load n.nodeToConn nodeID with
  | none => none
  | some v => some v

/-- The method `Connections.Close`. -/
def Close (env : Grpc) (n : Connections) (nodeID : UUID) : Option Error × Connections :=
  match syncMap.Load n.nodeToConn nodeID with
  | none => (none, n)
  | some conn =>
    let n := { n with closed := n.closed ++ [conn] }
    match env.Close conn with
    | some err => (some err, n)
    | none => (none, { n with nodeToConn := syncMap.Delete n.nodeToConn nodeID })

/-- The function literal given to `Range` in `Shutdown`, on the pair of the
errors collected and the ghost list of closed connections. -/
def Shutdown.body (env : Grpc) (_key : UUID) (value : ClientConn)
    (acc : List Error × List ClientConn) : (List Error × List ClientConn) × Bool :=
  match env.Close value with
  | some err => ((acc.1 ++ [err], acc.2 ++ [value]), true)
  | none => ((acc.1, acc.2 ++ [value]), true)

/-- The method `Connections.Shutdown`. -/
def Shutdown (env : Grpc) (n : Connections) : List Error × Connections :=
  let r := syncMap.Range (Shutdown.body env) n.nodeToConn ([], n.closed)
  (r.1, { n with closed := r.2 })

/-! ## `pkg/services/host.go` -/

/-- The struct `NewHost`. -/
structure NewHost where
  Name : String
  Address : String
  User : String
  Password : String
  LocalNodePath : String
  ShouldInstall : Bool
  Port : Int
  deriving DecidableEq, Repr

/-- The struct `hostInstall`. -/
structure hostInstall where
  User : String
  AnsiblePassword : String
  FcVersion : String
  LocalNodePath : String
  NodePort : String
  deriving DecidableEq, Repr

/-- The constant `fcVersion`. -/
def fcVersion : String := "0.17.0"

/-- The arguments `InstallHost` gives to `util.NewAnsibleCommand` (the playbook
is a constant and the logger has no effect): user, address, variables. -/
structure AnsibleCommand where
  user : String
  address : String
  vars : hostInstall
  deriving DecidableEq, Repr

/-- The interface `repositories.Hosts`, by the answers of the methods the
service calls. A lookup answers a host record; the record of a host that was
not found has the identifier `uuid.Nil`. -/
structure repositories.Hosts where
  ListHosts : Except Error (List model.Host)
  HostByAddress : String → Except Error model.Host
  HostByName : String → Except Error model.Host
  AddHost : model.Host → Except Error UUID
  UpdateHost : model.Host → Option Error

/-- The collaborators of the hosts service: gRPC, the hosts repository and the
installer (`ExecuteAnsible` of an Ansible command). -/
structure World where
  grpc : Grpc
  hostsRepository : repositories.Hosts
  ExecuteAnsible : AnsibleCommand → Option Error

/-- The struct `hostsService`: the connection manager, and three ghost lists,
the records given to the repository's `AddHost` and `UpdateHost` and the
installer commands executed, oldest first. -/
structure hostsService where
  connManager : Connections
  added : List model.Host
  updated : List model.Host
  installs : List AnsibleCommand
  deriving DecidableEq, Repr

/-- The text `fmt.Sprintf("%s:%d", address, port)`. -/
def hostAddress (address : String) (port : Int) : String :=
  address ++ ":" ++ toString port

/-- The loop of `InitializeHosts` over the hosts listed. -/
def InitializeHosts.loop (w : World) (fuel : Nat) :
    List model.Host → List Error → Connections → Option (List Error × Connections)
  | [], errors, n => some (errors, n)
  | host :: rest, errors, n =>
    let address := hostAddress host.Address host.Port
    if host.Status = model.Status.UP then
      match CreateConnection w.grpc fuel n host.ID address with
      | none => none
      | some (.error err, n') => InitializeHosts.loop w fuel rest (errors ++ [err]) n'
      | some (.ok _, n') => InitializeHosts.loop w fuel rest errors n'
    else
      InitializeHosts.loop w fuel rest errors n

/-- The method `hostsService.InitializeHosts`. -/
def InitializeHosts (w : World) (fuel : Nat) (hs : hostsService) :
    Option (List Error × hostsService) :=
  match w.hostsRepository.ListHosts with
  | .error _ => some ([Error.errorf "Couldn't fetch hosts from DB"], hs)
  | .ok hosts =>
    match InitializeHosts.loop w fuel hosts [] hs.connManager with
    | none => none
    | some (errors, n) => some (errors, { hs with connManager := n })

/-- The method `hostsService.updateHostStatus`. -/
def updateHostStatus (w : World) (hs : hostsService) (host : model.Host)
    (status : model.Status) : Option Error × hostsService :=
  let host := { host with Status := status }
  (w.hostsRepository.UpdateHost host, { hs with updated := hs.updated ++ [host] })

/-- A lookup call on the hosts repository. -/
inductive Lookup where
  | HostByAddress (address : String)
  | HostByName (name : String)
  deriving DecidableEq, Repr

/-- The answer of the repository to a lookup call. -/
def Lookup.answer (w : World) : Lookup → Except Error model.Host
  | .HostByAddress address => w.hostsRepository.HostByAddress address
  | .HostByName name => w.hostsRepository.HostByName name

/-- The method `hostsService.Validate`: the error returned, and the ghost list
of the repository lookups the call made, in order. -/
def Validate (w : World) (host : NewHost) : Option Error × List Lookup :=
  match w.hostsRepository.HostByAddress host.Address with
  | .error err => (some err, [Lookup.HostByAddress host.Address])
  | .ok h =>
    if h.ID ≠ uuid.Nil ∧ h.Status ≠ model.Status.FAILED then
      (some Error.ErrAlreadyExists, [Lookup.HostByAddress host.Address])
    else
      match w.hostsRepository.HostByName host.Name with
      | .error err =>
        (some err, [Lookup.HostByAddress host.Address, Lookup.HostByName host.Name])
      | .ok h =>
        if h.ID ≠ uuid.Nil ∧ h.Status ≠ model.Status.FAILED then
          (some Error.ErrAlreadyExists,
            [Lookup.HostByAddress host.Address, Lookup.HostByName host.Name])
        else
          (none, [Lookup.HostByAddress host.Address, Lookup.HostByName host.Name])

/-- The method `hostsService.AddHost`: the identifier and the error returned,
and the service afterwards. -/
def AddHost (w : World) (hs : hostsService) (newHost : NewHost) :
    (UUID × Option Error) × hostsService :=
  let host : model.Host :=
    { ID := uuid.Nil
      Name := newHost.Name
      Address := newHost.Address
      Status := model.Status.DOWN
      User := newHost.User
      Password := newHost.Password
      Port := newHost.Port }
  let hs := { hs with added := hs.added ++ [host] }
  match w.hostsRepository.AddHost host with
  | .error err => ((uuid.Nil, some err), hs)
  | .ok id => ((id, none), hs)

/-- The method `hostsService.UpdateHostStatus`. -/
def UpdateHostStatus (w : World) (hs : hostsService) (host : model.Host)
    (_status : model.Status) : Option Error × hostsService :=
  match updateHostStatus w hs host model.Status.UP with
  | (some err, hs') => (some err, hs')
  | (none, hs') => (none, hs')

/-- The method `hostsService.InstallHost`. -/
def InstallHost (w : World) (fuel : Nat) (hs : hostsService) (h : model.Host)
    (localNodePath : String) : Option hostsService :=
  let hi : hostInstall :=
    { User := h.User
      FcVersion := fcVersion
      AnsiblePassword := h.Password
      LocalNodePath := localNodePath
      NodePort := toString h.Port }
  let hs := (UpdateHostStatus w hs h model.Status.INSTALLING).2
  let ac : AnsibleCommand := { user := h.User, address := h.Address, vars := hi }
  let hs := { hs with installs := hs.installs ++ [ac] }
  match w.ExecuteAnsible ac with
  | some _ => some (UpdateHostStatus w hs h model.Status.FAILED).2
  | none =>
    let address := hostAddress h.Address h.Port
    match CreateConnection w.grpc fuel hs.connManager h.ID address with
    | none => none
    | some (_, n) =>
      let hs := { hs with connManager := n }
      some (UpdateHostStatus w hs h model.Status.UP).2

/-! ## Sequences of pool operations -/

/-- One call on the pool. -/
inductive Op where
  | CreateConnection (nodeID : UUID) (address : String)
  | GetConnection (nodeID : UUID)
  | Close (nodeID : UUID)
  | Shutdown
  deriving DecidableEq, Repr

/-- The pool after one call (`none`: the call did not return within the bound). -/
def runOp (env : Grpc) (fuel : Nat) (n : Connections) : Op → Option Connections
  | .CreateConnection nodeID address =>
    match CreateConnection env fuel n nodeID address with
    | none => none
    | some (_, n') => some n'
  | .GetConnection nodeID =>
    match GetConnection n nodeID with
    | _ => some n
  | .Close nodeID => some (Close env n nodeID).2
  | .Shutdown => some (Shutdown env n).2

/-- The pool after a sequence of calls, made one after the other. -/
def runOps (env : Grpc) (fuel : Nat) : List Op → Connections → Option Connections
  | [], n => some n
  | op :: rest, n =>
    match runOp env fuel n op with
    | none => none
    | some n' => runOps env fuel rest n'

/-! ## Concrete worlds used in the examples -/

/-- A gRPC whose dialled connection (number 2) is ready at the first check and
on which every `Close` succeeds. -/
def readyGrpc : Grpc :=
  { Dial := fun _ => .ok 2
    GetState := fun _ _ => connectivity.State.Ready
    Close := fun _ => none }

/-- A gRPC whose dialled connection (number 7) stays in state `Connecting`. -/
def neverReadyGrpc : Grpc :=
  { Dial := fun _ => .ok 7
    GetState := fun _ _ => connectivity.State.Connecting
    Close := fun _ => none }

/-- A gRPC on which closing connection 12 fails and closing any other succeeds;
dialling "bad:1" fails. -/
def flakyGrpc : Grpc :=
  { Dial := fun a => if a = "bad:1" then .error (Error.errorf "dial") else .ok 2
    GetState := fun _ k => if k < 3 then connectivity.State.Connecting else connectivity.State.Ready
    Close := fun c => if c = 12 then some (Error.errorf "close") else none }

/-- A pool of three channels, for the nodes 1, 2 and 3. -/
def threePool : Connections :=
  { nodeToConn := [(1, 11), (2, 12), (3, 13)], dials := [], closed := [] }

/-- A host recorded UP at 10.0.0.1:9000. -/
def hostOne : model.Host :=
  { ID := 5, Name := "h1", Address := "10.0.0.1", Status := model.Status.UP
    User := "root", Password := "pw", Port := 9000 }

/-- A host recorded UP whose address, "bad:1", cannot be dialled. -/
def hostBad : model.Host :=
  { ID := 6, Name := "h2", Address := "bad", Status := model.Status.UP
    User := "root", Password := "pw", Port := 1 }

/-- A host recorded DOWN. -/
def hostDown : model.Host :=
  { ID := 7, Name := "h3", Address := "10.0.0.3", Status := model.Status.DOWN
    User := "root", Password := "pw", Port := 9000 }

/-- The record a lookup answers when no host is found. -/
def hostAbsent : model.Host :=
  { ID := uuid.Nil, Name := "", Address := "", Status := model.Status.DOWN
    User := "", Password := "", Port := 0 }

/-- A world over `flakyGrpc`: the repository lists three hosts, finds `hostOne`
at the address "10.0.0.1" and nothing at any other, fails every lookup by name
but that of "fresh", and accepts every write; the installer fails on the address
"10.0.0.3" only. -/
def demoWorld : World :=
  { grpc := flakyGrpc
    hostsRepository :=
      { ListHosts := .ok [hostOne, hostBad, hostDown]
        HostByAddress := fun a => if a = "10.0.0.1" then .ok hostOne else .ok hostAbsent
        HostByName := fun a => if a = "fresh" then .ok hostAbsent else .error (Error.errorf "db")
        AddHost := fun _ => .ok 42
        UpdateHost := fun _ => none }
    ExecuteAnsible := fun c =>
      if c.address = "10.0.0.3" then some (Error.errorf "ansible") else none }

/-- A host recorded UP at "stuck:1". -/
def hostStuck : model.Host :=
  { ID := 8, Name := "h4", Address := "stuck", Status := model.Status.UP
    User := "root", Password := "pw", Port := 1 }

/-- A gRPC on which no dial fails: the channel dialled at "stuck:1" (number 7)
stays in state `Connecting`, the channel dialled at any other address (number
2) is ready at the first check. -/
def stuckGrpc : Grpc :=
  { Dial := fun a => if a = "stuck:1" then .ok 7 else .ok 2
    GetState := fun c _ =>
      if c = 7 then connectivity.State.Connecting else connectivity.State.Ready
    Close := fun _ => none }

/-- A world over `stuckGrpc` whose repository lists `hostStuck`, then `hostOne`. -/
def stuckWorld : World :=
  { grpc := stuckGrpc
    hostsRepository :=
      { ListHosts := .ok [hostStuck, hostOne]
        HostByAddress := fun _ => .ok hostAbsent
        HostByName := fun _ => .ok hostAbsent
        AddHost := fun _ => .ok 42
        UpdateHost := fun _ => none }
    ExecuteAnsible := fun _ => none }

/-- A hosts service over a new pool, nothing written yet. -/
def newService : hostsService :=
  { connManager := NewNodeConnectionManager, added := [], updated := [], installs := [] }

/-- A registration of the name "h1" at the address "10.0.0.1". -/
def newHostOne : NewHost :=
  { Name := "h1", Address := "10.0.0.1", User := "root", Password := "pw"
    LocalNodePath := "/opt/node", ShouldInstall := true, Port := 9000 }

/-- The records of the ghost list `updated` that the repository accepted. -/
def persisted (w : World) (hs : hostsService) : List model.Host :=
  hs.updated.filter (fun host => (w.hostsRepository.UpdateHost host).isNone)

/-- Whether a lookup found a host that stands in the way of a registration: an
existing host (identifier not `uuid.Nil`) whose status is not FAILED. -/
def conflicts (h : model.Host) : Prop :=
  h.ID ≠ uuid.Nil ∧ h.Status ≠ model.Status.FAILED

instance (h : model.Host) : Decidable (conflicts h) := by
  unfold conflicts
  infer_instance

/-! ## Quantities of the statements about `InitializeHosts` -/

/-- Whether dialling an address fails. -/
def dialFails (env : Grpc) (address : String) : Bool :=
  match env.Dial address with
  | .error _ => true
  | .ok _ => false

/-- Whether a host is recorded UP. -/
def isUP (host : model.Host) : Bool :=
  decide (host.Status = model.Status.UP)

/-- Whether a host is recorded UP and dialling its address fails. -/
def isUPFailing (env : Grpc) (host : model.Host) : Bool :=
  isUP host && dialFails env (hostAddress host.Address host.Port)

/-- The dial errors of the hosts recorded UP, in the order of the hosts. -/
def dialErrors (env : Grpc) (hosts : List model.Host) : List Error :=
  hosts.filterMap (fun host =>
    if host.Status = model.Status.UP then
      match env.Dial (hostAddress host.Address host.Port) with
      | .error err => some err
      | .ok _ => none
    else none)

/-- The channels dialled with success for the hosts recorded UP, each with the
identifier of its host, in the order of the hosts. -/
def dialled (env : Grpc) (hosts : List model.Host) : List (UUID × ClientConn) :=
  hosts.filterMap (fun host =>
    if host.Status = model.Status.UP then
      match env.Dial (hostAddress host.Address host.Port) with
      | .error _ => none
      | .ok conn => some (host.ID, conn)
    else none)

/-- The `CreateConnection` calls expected of `InitializeHosts`: one for every
host recorded UP, in the order of the hosts. -/
def expectedDials (hosts : List model.Host) : List (UUID × String) :=
  (hosts.filter isUP).map (fun host => (host.ID, hostAddress host.Address host.Port))

/-! ## Facts about the association list -/

theorem syncMap.Load_Delete_self (m : List (UUID × ClientConn)) (key : UUID) :
    syncMap.Load (syncMap.Delete m key) key = none := by
  induction m with
  | nil => rfl
  | cons e rest ih =>
    obtain ⟨k, v⟩ := e
    by_cases hk : k = key
    · simpa [syncMap.Load, syncMap.Delete, hk] using ih
    · have hne : (key == k) = false := by simpa using fun h => hk h.symm
      simpa [syncMap.Load, syncMap.Delete, hk, List.lookup, hne] using ih

theorem syncMap.Load_Delete_ne (m : List (UUID × ClientConn)) (key other : UUID)
    (h : other ≠ key) :
    syncMap.Load (syncMap.Delete m key) other = syncMap.Load m other := by
  induction m with
  | nil => rfl
  | cons e rest ih =>
    obtain ⟨k, v⟩ := e
    by_cases hk : k = key
    · subst hk
      have hne : (other == k) = false := by simpa using h
      simpa [syncMap.Load, syncMap.Delete, List.lookup, hne] using ih
    · by_cases ho : other = k
      · subst ho
        simp [syncMap.Load, syncMap.Delete, hk, List.lookup]
      · have hne : (other == k) = false := by simpa using ho
        simpa [syncMap.Load, syncMap.Delete, hk, List.lookup, hne] using ih

theorem syncMap.Load_Store_self (m : List (UUID × ClientConn)) (key : UUID)
    (value : ClientConn) : syncMap.Load (syncMap.Store m key value) key = some value := by
  simp [syncMap.Load, syncMap.Store, List.lookup]

theorem syncMap.Load_Store_ne (m : List (UUID × ClientConn)) (key other : UUID)
    (value : ClientConn) (h : other ≠ key) :
    syncMap.Load (syncMap.Store m key value) other = syncMap.Load m other := by
  have hne : (other == key) = false := by simpa using h
  have := syncMap.Load_Delete_ne m key other h
  simpa [syncMap.Load, syncMap.Store, List.lookup, hne] using this

theorem GetConnection_eq_Load (n : Connections) (nodeID : UUID) :
    GetConnection n nodeID = syncMap.Load n.nodeToConn nodeID := by
  unfold GetConnection
  cases syncMap.Load n.nodeToConn nodeID <;> rfl

/-! ## Facts about the pool -/

theorem CreateConnection.loop_eq_some (env : Grpc) (nodeID : UUID) (conn : ClientConn)
    (fuel poll : Nat) (n n' : Connections)
    (h : CreateConnection.loop env nodeID conn fuel poll n = some n') :
    n' = { n with nodeToConn := syncMap.Store n.nodeToConn nodeID conn } := by
  induction fuel generalizing poll with
  | zero => simp [CreateConnection.loop] at h
  | succ fuel ih =>
    unfold CreateConnection.loop at h
    split at h
    · exact (Option.some.inj h).symm
    · exact ih _ h

theorem CreateConnection.loop_of_ready (env : Grpc) (nodeID : UUID) (conn : ClientConn)
    (fuel poll : Nat) (n : Connections)
    (h : ∃ k, k < fuel ∧ env.GetState conn (poll + k) = connectivity.State.Ready) :
    CreateConnection.loop env nodeID conn fuel poll n
      = some { n with nodeToConn := syncMap.Store n.nodeToConn nodeID conn } := by
  induction fuel generalizing poll with
  | zero => obtain ⟨k, hk, _⟩ := h; omega
  | succ fuel ih =>
    unfold CreateConnection.loop
    split
    · rfl
    · rename_i hnot
      apply ih
      obtain ⟨k, hk, hr⟩ := h
      cases k with
      | zero => exact absurd hr hnot
      | succ k => exact ⟨k, by omega, by rw [← hr]; congr 1; omega⟩

theorem CreateConnection.loop_of_not_ready (env : Grpc) (nodeID : UUID) (conn : ClientConn)
    (fuel poll : Nat) (n : Connections)
    (h : ∀ k, k < fuel → env.GetState conn (poll + k) ≠ connectivity.State.Ready) :
    CreateConnection.loop env nodeID conn fuel poll n = none := by
  induction fuel generalizing poll with
  | zero => rfl
  | succ fuel ih =>
    unfold CreateConnection.loop
    have h0 := h 0 (by omega)
    rw [if_neg (by simpa using h0)]
    apply ih
    intro k hk
    have := h (k + 1) (by omega)
    rwa [show poll + (k + 1) = poll + 1 + k by omega] at this

theorem CreateConnection_ok (env : Grpc) (fuel : Nat) (n n' : Connections) (nodeID : UUID)
    (address : String) (conn : ClientConn)
    (h : CreateConnection env fuel n nodeID address = some (.ok conn, n')) :
    n' = { nodeToConn := syncMap.Store n.nodeToConn nodeID conn
           dials := n.dials ++ [(nodeID, address)]
           closed := n.closed } := by
  unfold CreateConnection at h
  cases hd : env.Dial address with
  | error err => simp [hd] at h
  | ok c =>
    simp only [hd] at h
    cases hl : CreateConnection.loop env nodeID c fuel 0
        { n with dials := n.dials ++ [(nodeID, address)] } with
    | none => simp [hl] at h
    | some m =>
      simp only [hl, Option.some.injEq, Prod.mk.injEq, Except.ok.injEq] at h
      obtain ⟨hc, hm⟩ := h
      subst hc hm
      exact CreateConnection.loop_eq_some env nodeID c fuel 0 _ _ hl

theorem CreateConnection_error (env : Grpc) (fuel : Nat) (n n' : Connections) (nodeID : UUID)
    (address : String) (err : Error)
    (h : CreateConnection env fuel n nodeID address = some (.error err, n')) :
    env.Dial address = .error err ∧ n' = { n with dials := n.dials ++ [(nodeID, address)] } := by
  unfold CreateConnection at h
  cases hd : env.Dial address with
  | error e =>
    simp only [hd, Option.some.injEq, Prod.mk.injEq, Except.error.injEq] at h
    exact ⟨by rw [h.1], h.2.symm⟩
  | ok c =>
    simp only [hd] at h
    cases hl : CreateConnection.loop env nodeID c fuel 0
        { n with dials := n.dials ++ [(nodeID, address)] } with
    | none => simp [hl] at h
    | some m => simp [hl] at h

theorem Shutdown.range_eq (env : Grpc) (m : List (UUID × ClientConn))
    (acc : List Error × List ClientConn) :
    syncMap.Range (Shutdown.body env) m acc
      = (acc.1 ++ m.filterMap (fun e => env.Close e.2), acc.2 ++ m.map (fun e => e.2)) := by
  induction m generalizing acc with
  | nil => simp [syncMap.Range]
  | cons e rest ih =>
    obtain ⟨k, v⟩ := e
    cases hc : env.Close v with
    | none => simp [syncMap.Range, Shutdown.body, hc, ih, List.filterMap_cons]
    | some err => simp [syncMap.Range, Shutdown.body, hc, ih, List.filterMap_cons]

theorem CreateConnection_error_of_dial (env : Grpc) (fuel : Nat) (n : Connections)
    (nodeID : UUID) (address : String) (err : Error) (hd : env.Dial address = .error err) :
    CreateConnection env fuel n nodeID address
      = some (.error err, { n with dials := n.dials ++ [(nodeID, address)] }) := by
  simp [CreateConnection, hd]

theorem CreateConnection_ok_or_none (env : Grpc) (fuel : Nat) (n : Connections)
    (nodeID : UUID) (address : String) (conn : ClientConn) (hd : env.Dial address = .ok conn) :
    ((∃ k, k < fuel ∧ env.GetState conn k = connectivity.State.Ready) →
      CreateConnection env fuel n nodeID address
        = some (.ok conn,
            { nodeToConn := syncMap.Store n.nodeToConn nodeID conn
              dials := n.dials ++ [(nodeID, address)]
              closed := n.closed }))
    ∧ ((∀ k, k < fuel → env.GetState conn k ≠ connectivity.State.Ready) →
      CreateConnection env fuel n nodeID address = none) := by
  refine ⟨fun hr => ?_, fun hr => ?_⟩
  · have hl := CreateConnection.loop_of_ready env nodeID conn fuel 0
      { n with dials := n.dials ++ [(nodeID, address)] } (by simpa using hr)
    simp [CreateConnection, hd, hl]
  · have hl := CreateConnection.loop_of_not_ready env nodeID conn fuel 0
      { n with dials := n.dials ++ [(nodeID, address)] } (by simpa using hr)
    simp [CreateConnection, hd, hl]

theorem runOp_absent (env : Grpc) (fuel : Nat) (nodeID : UUID) (op : Op) (n n' : Connections)
    (h0 : syncMap.Load n.nodeToConn nodeID = none)
    (hrun : runOp env fuel n op = some n')
    (hno : ∀ address, op = Op.CreateConnection nodeID address →
      ∀ m conn m', CreateConnection env fuel m nodeID address ≠ some (.ok conn, m')) :
    syncMap.Load n'.nodeToConn nodeID = none := by
  cases op with
  | CreateConnection id address =>
    simp only [runOp] at hrun
    cases hc : CreateConnection env fuel n id address with
    | none => simp [hc] at hrun
    | some r =>
      obtain ⟨res, m⟩ := r
      simp only [hc, Option.some.injEq] at hrun
      subst hrun
      cases res with
      | error err =>
        rw [(CreateConnection_error env fuel n m id address err hc).2]
        exact h0
      | ok conn =>
        have hne : nodeID ≠ id := by
          intro hid
          subst hid
          exact hno address rfl n conn m hc
        rw [CreateConnection_ok env fuel n m id address conn hc]
        simpa [syncMap.Load_Store_ne _ _ _ _ hne] using h0
  | GetConnection id =>
    simp only [runOp, Option.some.injEq] at hrun
    subst hrun
    exact h0
  | Close id =>
    simp only [runOp, Option.some.injEq] at hrun
    subst hrun
    unfold Close
    cases hl : syncMap.Load n.nodeToConn id with
    | none => simpa using h0
    | some conn =>
      cases hc : env.Close conn with
      | some err => simpa [hc] using h0
      | none =>
        by_cases hid : nodeID = id
        · subst hid
          simpa [hc] using syncMap.Load_Delete_self n.nodeToConn nodeID
        · simpa [hc, syncMap.Load_Delete_ne _ _ _ hid] using h0
  | Shutdown =>
    simp only [runOp, Option.some.injEq] at hrun
    subst hrun
    exact h0

theorem runOps_absent (env : Grpc) (fuel : Nat) (nodeID : UUID) (ops : List Op)
    (n n' : Connections)
    (h0 : GetConnection n nodeID = none)
    (hrun : runOps env fuel ops n = some n')
    (hno : ∀ address, Op.CreateConnection nodeID address ∈ ops →
      ∀ m conn m', CreateConnection env fuel m nodeID address ≠ some (.ok conn, m')) :
    GetConnection n' nodeID = none := by
  induction ops generalizing n with
  | nil =>
    simp only [runOps, Option.some.injEq] at hrun
    subst hrun
    exact h0
  | cons op rest ih =>
    simp only [runOps] at hrun
    cases hop : runOp env fuel n op with
    | none => simp [hop] at hrun
    | some m =>
      simp only [hop] at hrun
      rw [GetConnection_eq_Load] at h0
      have hm := runOp_absent env fuel nodeID op n m h0 hop
        (fun address hcr => hno address (by simp [hcr]))
      exact ih m (by rw [GetConnection_eq_Load]; exact hm) hrun
        (fun address hmem => hno address (List.mem_cons_of_mem _ hmem))

/-! ## The pool: `Shutdown` -/

/-- C4, as the code has it: for every pool, `Shutdown` calls `Close` on every
channel of the pool, once each and without stopping at a failure, returns the
errors of the failed closes, one per failure, and leaves the entries of the
pool as they were: every channel, closed or not, is still the answer of
`GetConnection` afterwards. -/
theorem Shutdown_closes_all_keeps_entries (env : Grpc) (n : Connections) :
    (Shutdown env n).2.closed = n.closed ++ n.nodeToConn.map (fun e => e.2)
    ∧ (Shutdown env n).1 = n.nodeToConn.filterMap (fun e => env.Close e.2)
    ∧ (Shutdown env n).1.length
        = (n.nodeToConn.filter (fun e => (env.Close e.2).isSome)).length
    ∧ (Shutdown env n).2.nodeToConn = n.nodeToConn
    ∧ ∀ nodeID, GetConnection (Shutdown env n).2 nodeID = GetConnection n nodeID := by
  have hr := Shutdown.range_eq env n.nodeToConn ([], n.closed)
  refine ⟨?_, ?_, ?_, rfl, fun _ => rfl⟩
  · simp [Shutdown, hr]
  · simp [Shutdown, hr]
  · simp only [Shutdown, hr, List.nil_append]
    induction n.nodeToConn with
    | nil => rfl
    | cons e rest ih =>
      cases hc : env.Close e.2 <;> simp [List.filterMap_cons, List.filter_cons, hc, ih]

/-- C4 fails as stated: on a pool of three channels of which one (that of node
2) fails to close, `Shutdown` returns one error and closes the three, yet the
channels of nodes 1 and 3, closed with success, are still in the pool. -/
theorem Shutdown_keeps_closed_channels :
    (Shutdown flakyGrpc threePool).1.length = 1
    ∧ (Shutdown flakyGrpc threePool).2.closed = [11, 12, 13]
    ∧ flakyGrpc.Close 11 = none
    ∧ flakyGrpc.Close 13 = none
    ∧ GetConnection (Shutdown flakyGrpc threePool).2 1 = some 11
    ∧ GetConnection (Shutdown flakyGrpc threePool).2 3 = some 13 := by
  decide

/-! ## The pool: `Close` -/

/-- C8: `Close` of a node without entry returns no error and leaves the pool
unchanged; `Close` of a node with an entry calls `Close` on that channel, once,
and returns its answer; when that close succeeds the entry is removed
(`GetConnection` is absent afterwards, a second `Close` changes nothing), when
it fails the map is left as it was; in every case the entries of all other
nodes are unchanged. -/
theorem Close_spec (env : Grpc) (n : Connections) (nodeID : UUID) :
    (GetConnection n nodeID = none → Close env n nodeID = (none, n))
    ∧ (∀ conn, GetConnection n nodeID = some conn →
        (Close env n nodeID).2.closed = n.closed ++ [conn]
        ∧ (Close env n nodeID).1 = env.Close conn
        ∧ (env.Close conn = none →
            Close env n nodeID
              = (none, { nodeToConn := syncMap.Delete n.nodeToConn nodeID
                         dials := n.dials
                         closed := n.closed ++ [conn] })
            ∧ GetConnection (Close env n nodeID).2 nodeID = none
            ∧ Close env (Close env n nodeID).2 nodeID = (none, (Close env n nodeID).2))
        ∧ (∀ err, env.Close conn = some err →
            Close env n nodeID
              = (some err, { nodeToConn := n.nodeToConn
                             dials := n.dials
                             closed := n.closed ++ [conn] })
            ∧ GetConnection (Close env n nodeID).2 nodeID = some conn))
    ∧ (∀ other, other ≠ nodeID →
        GetConnection (Close env n nodeID).2 other = GetConnection n other)
    ∧ (Close env n nodeID).2.dials = n.dials := by
  simp only [GetConnection_eq_Load]
  cases hl : syncMap.Load n.nodeToConn nodeID with
  | none =>
    have hc : Close env n nodeID = (none, n) := by simp [Close, hl]
    rw [hc]
    exact ⟨fun _ => rfl, fun conn h => by simp at h, fun _ _ => rfl, rfl⟩
  | some c =>
    cases hc : env.Close c with
    | some err =>
      have hv : Close env n nodeID
          = (some err, { nodeToConn := n.nodeToConn, dials := n.dials
                         closed := n.closed ++ [c] }) := by
        simp [Close, hl, hc]
      rw [hv]
      refine ⟨fun h => by simp at h, fun conn h => ?_, fun _ _ => rfl, rfl⟩
      have hcc : c = conn := Option.some.inj h
      subst hcc
      refine ⟨rfl, hc.symm, fun h0 => ?_, fun e he => ?_⟩
      · rw [hc] at h0
        cases h0
      · rw [hc] at he
        cases he
        exact ⟨rfl, hl⟩
    | none =>
      have hv : Close env n nodeID
          = (none, { nodeToConn := syncMap.Delete n.nodeToConn nodeID, dials := n.dials
                     closed := n.closed ++ [c] }) := by
        simp [Close, hl, hc]
      have hself := syncMap.Load_Delete_self n.nodeToConn nodeID
      rw [hv]
      refine ⟨fun h => by simp at h, fun conn h => ?_,
        fun other ho => syncMap.Load_Delete_ne n.nodeToConn nodeID other ho, rfl⟩
      have hcc : c = conn := Option.some.inj h
      subst hcc
      refine ⟨rfl, hc.symm, fun _ => ⟨rfl, hself, ?_⟩, fun e he => ?_⟩
      · simp [Close, hself]
      · rw [hc] at he
        cases he

/-- C8 on the pool of three channels: closing node 1 succeeds and removes its
entry only; closing node 2 fails, returns the error and keeps every entry;
closing the unknown node 9 changes nothing. -/
theorem Close_spec_witness :
    GetConnection threePool 1 = some 11
    ∧ GetConnection (Close flakyGrpc threePool 1).2 1 = none
    ∧ GetConnection (Close flakyGrpc threePool 1).2 3 = some 13
    ∧ Close flakyGrpc threePool 2
        = (some (Error.errorf "close"),
            { nodeToConn := threePool.nodeToConn, dials := threePool.dials
              closed := threePool.closed ++ [12] })
    ∧ GetConnection (Close flakyGrpc threePool 2).2 1 = GetConnection threePool 1
    ∧ Close flakyGrpc threePool 9 = (none, threePool) :=
  ⟨by decide,
   (((Close_spec flakyGrpc threePool 1).2.1 11 (by decide)).2.2.1 (by decide)).2.1,
   by decide,
   (((Close_spec flakyGrpc threePool 2).2.1 12 (by decide)).2.2.2
      (Error.errorf "close") (by decide)).1,
   (Close_spec flakyGrpc threePool 2).2.2.1 1 (by decide),
   (Close_spec flakyGrpc threePool 9).1 (by decide)⟩

/-! ## The pool: `CreateConnection` -/

/-- C7, as the code has it: when `CreateConnection` succeeds, the new channel
is the answer of `GetConnection` for that node afterwards and the entries of
all other nodes are unchanged; `Close` is called on no channel, so a channel
stored before for that node is replaced without being closed. -/
theorem CreateConnection_installs (env : Grpc) (fuel : Nat) (n n' : Connections)
    (nodeID : UUID) (address : String) (conn : ClientConn)
    (h : CreateConnection env fuel n nodeID address = some (.ok conn, n')) :
    GetConnection n' nodeID = some conn
    ∧ (∀ other, other ≠ nodeID → GetConnection n' other = GetConnection n other)
    ∧ n'.closed = n.closed := by
  have hn := CreateConnection_ok env fuel n n' nodeID address conn h
  subst hn
  refine ⟨?_, fun other ho => ?_, rfl⟩
  · rw [GetConnection_eq_Load]
    exact syncMap.Load_Store_self _ _ _
  · rw [GetConnection_eq_Load, GetConnection_eq_Load]
    exact syncMap.Load_Store_ne _ _ _ _ ho

/-- C7 at a concrete pool: the channel 11 of node 1 is replaced by the new
channel 2, the channels of nodes 2 and 3 stay. -/
theorem CreateConnection_installs_witness :
    GetConnection
        { nodeToConn := syncMap.Store threePool.nodeToConn 1 2
          dials := [(1, "10.0.0.1:9000")], closed := [] } 1 = some 2
    ∧ (∀ other, other ≠ 1 →
        GetConnection
          { nodeToConn := syncMap.Store threePool.nodeToConn 1 2
            dials := [(1, "10.0.0.1:9000")], closed := [] } other
          = GetConnection threePool other)
    ∧ ([] : List ClientConn) = threePool.closed :=
  CreateConnection_installs readyGrpc 1 threePool _ 1 "10.0.0.1:9000" 2 rfl

/-- C7 fails as stated: node 1 has the channel 11 in the pool; a successful
`CreateConnection` for node 1 installs the channel 2 in its place, and the
channel 11 has not been closed. -/
theorem CreateConnection_replaces_without_close :
    ∃ n', CreateConnection readyGrpc 1 threePool 1 "10.0.0.1:9000" = some (.ok 2, n')
      ∧ GetConnection threePool 1 = some 11
      ∧ GetConnection n' 1 = some 2
      ∧ 11 ∉ n'.closed :=
  ⟨{ nodeToConn := syncMap.Store threePool.nodeToConn 1 2
     dials := [(1, "10.0.0.1:9000")], closed := [] },
   rfl, by decide, by decide, by decide⟩

/-- C10, as the code has it: `CreateConnection` returns the dial error, with
nothing installed, when the dial fails; when the dial succeeds it returns,
with the channel installed, exactly when one of the readiness checks it is
allowed finds the state `Ready`, and it does not return within any number of
checks that all find another state. -/
theorem CreateConnection_returns_iff_ready (env : Grpc) (fuel : Nat) (n : Connections)
    (nodeID : UUID) (address : String) :
    (∀ err, env.Dial address = .error err →
      CreateConnection env fuel n nodeID address
        = some (.error err, { n with dials := n.dials ++ [(nodeID, address)] }))
    ∧ ∀ conn, env.Dial address = .ok conn →
        ((∃ k, k < fuel ∧ env.GetState conn k = connectivity.State.Ready) →
          CreateConnection env fuel n nodeID address
            = some (.ok conn,
                { nodeToConn := syncMap.Store n.nodeToConn nodeID conn
                  dials := n.dials ++ [(nodeID, address)]
                  closed := n.closed }))
        ∧ ((∀ k, k < fuel → env.GetState conn k ≠ connectivity.State.Ready) →
          CreateConnection env fuel n nodeID address = none) := by
  refine ⟨fun err hd => by simp [CreateConnection, hd], fun conn hd => ⟨fun hr => ?_, fun hr => ?_⟩⟩
  · have hl := CreateConnection.loop_of_ready env nodeID conn fuel 0
      { n with dials := n.dials ++ [(nodeID, address)] } (by simpa using hr)
    simp [CreateConnection, hd, hl]
  · have hl := CreateConnection.loop_of_not_ready env nodeID conn fuel 0
      { n with dials := n.dials ++ [(nodeID, address)] } (by simpa using hr)
    simp [CreateConnection, hd, hl]

/-- C10 at a concrete world: the channel is ready at the fourth check, and
`CreateConnection` returns it when allowed five checks. -/
theorem CreateConnection_returns_iff_ready_witness :
    CreateConnection flakyGrpc 5 NewNodeConnectionManager 1 "10.0.0.1:9000"
      = some (.ok 2,
          { nodeToConn := syncMap.Store [] 1 2
            dials := [] ++ [(1, "10.0.0.1:9000")]
            closed := [] }) :=
  ((CreateConnection_returns_iff_ready flakyGrpc 5 NewNodeConnectionManager 1
      "10.0.0.1:9000").2 2 rfl).1 ⟨3, by decide, by decide⟩

/-- C10 fails as stated: on a channel whose state stays `Connecting`, no number
of readiness checks makes `CreateConnection` return. -/
theorem CreateConnection_never_returns :
    ¬ ∃ fuel, (CreateConnection neverReadyGrpc fuel NewNodeConnectionManager 1
        "10.0.0.1:9000").isSome = true := by
  rintro ⟨fuel, h⟩
  have hnone := ((CreateConnection_ok_or_none neverReadyGrpc fuel NewNodeConnectionManager 1
      "10.0.0.1:9000" 7 rfl).2 (fun k _ => by simp [neverReadyGrpc]))
  rw [hnone] at h
  exact Bool.noConfusion h

/-! ## The pool: `GetConnection` -/

/-- C6: after any sequence of pool calls from a new pool in which no
`CreateConnection` for a node succeeded, `GetConnection` of that node is
absent; on a new pool it is absent for every node; and a `GetConnection` call
leaves the pool as it was. -/
theorem GetConnection_absent_without_create (env : Grpc) (fuel : Nat) (ops : List Op)
    (nodeID : UUID) (n : Connections)
    (hrun : runOps env fuel ops NewNodeConnectionManager = some n)
    (hno : ∀ address, Op.CreateConnection nodeID address ∈ ops →
      ∀ m conn m', CreateConnection env fuel m nodeID address ≠ some (.ok conn, m')) :
    GetConnection n nodeID = none
    ∧ (∀ other, GetConnection NewNodeConnectionManager other = none)
    ∧ ∀ m other, runOp env fuel m (Op.GetConnection other) = some m := by
  refine ⟨?_, fun _ => rfl, fun _ _ => rfl⟩
  exact runOps_absent env fuel nodeID ops NewNodeConnectionManager n rfl hrun hno

/-- C6 at a concrete sequence: node 1 is dialled at an address that fails, node
2 gets a channel, node 1 is closed and the pool shut down; node 1 has no
channel at the end. -/
theorem GetConnection_absent_without_create_witness :
    GetConnection
        { nodeToConn := [(2, 2)]
          dials := [(1, "bad:1"), (2, "10.0.0.2:9000")]
          closed := [2] } 1 = none
    ∧ (∀ other, GetConnection NewNodeConnectionManager other = none)
    ∧ ∀ m other, runOp flakyGrpc 5 m (Op.GetConnection other) = some m :=
  GetConnection_absent_without_create flakyGrpc 5
    [Op.CreateConnection 1 "bad:1", Op.CreateConnection 2 "10.0.0.2:9000",
     Op.GetConnection 1, Op.Close 1, Op.Shutdown] 1 _ (by decide)
    (by
      intro address hmem m conn m' h
      have haddr : address = "bad:1" := by
        simp only [List.mem_cons, Op.CreateConnection.injEq, List.mem_singleton] at hmem
        rcases hmem with h1 | h2 | h3 | h4 | h5
        · exact h1.2
        · exact absurd h2.1 (by decide)
        · exact Op.noConfusion h3
        · exact Op.noConfusion h4
        · simp at h5
      subst haddr
      have := CreateConnection_error_of_dial flakyGrpc 5 m 1 "bad:1" (Error.errorf "dial") rfl
      rw [this] at h
      simp at h)

/-! ## The service: `UpdateHostStatus` -/

/-- Whatever status is asked for, `UpdateHostStatus` gives the repository's
`UpdateHost` the host with its status set to UP, and returns the repository's
error unchanged. -/
theorem UpdateHostStatus_writes_UP (w : World) (hs : hostsService) (host : model.Host)
    (status : model.Status) :
    UpdateHostStatus w hs host status
      = (w.hostsRepository.UpdateHost { host with Status := model.Status.UP },
         { hs with updated := hs.updated ++ [{ host with Status := model.Status.UP }] }) := by
  simp only [UpdateHostStatus, updateHostStatus]
  split <;> simp_all

/-- C1, where the code departs from it: asked to record `hostDown` as FAILED,
`UpdateHostStatus` gives the repository one record, whose status is UP and not
the status passed in. -/
theorem UpdateHostStatus_FAILED_writes_UP :
    ((UpdateHostStatus demoWorld newService hostDown model.Status.FAILED).2.updated.map
        (fun host => host.Status)) = [model.Status.UP]
    ∧ (UpdateHostStatus demoWorld newService hostDown model.Status.FAILED).2.updated
        ≠ [{ hostDown with Status := model.Status.FAILED }] := by
  decide

/-! ## The service: `AddHost` -/

/-- C9: `AddHost` gives the repository's `AddHost` one record, of status DOWN
and with the name, address, user, password and port of the new host; it
returns the identifier the repository assigned, or `uuid.Nil` with the
repository's error; it runs no installer, writes no status and leaves the
connection pool as it was. -/
theorem AddHost_spec (w : World) (hs : hostsService) (newHost : NewHost) :
    (AddHost w hs newHost).2.added
        = hs.added ++ [{ ID := uuid.Nil, Name := newHost.Name, Address := newHost.Address
                         Status := model.Status.DOWN, User := newHost.User
                         Password := newHost.Password, Port := newHost.Port }]
    ∧ (AddHost w hs newHost).2.connManager = hs.connManager
    ∧ (AddHost w hs newHost).2.installs = hs.installs
    ∧ (AddHost w hs newHost).2.updated = hs.updated
    ∧ (∀ id, w.hostsRepository.AddHost
          { ID := uuid.Nil, Name := newHost.Name, Address := newHost.Address
            Status := model.Status.DOWN, User := newHost.User
            Password := newHost.Password, Port := newHost.Port } = .ok id →
        (AddHost w hs newHost).1 = (id, none))
    ∧ (∀ err, w.hostsRepository.AddHost
          { ID := uuid.Nil, Name := newHost.Name, Address := newHost.Address
            Status := model.Status.DOWN, User := newHost.User
            Password := newHost.Password, Port := newHost.Port } = .error err →
        (AddHost w hs newHost).1 = (uuid.Nil, some err)) := by
  simp only [AddHost]
  refine ⟨?_, ?_, ?_, ?_, fun id h => by simp [h], fun err h => by simp [h]⟩ <;>
    (split <;> rfl)

/-- C9 at a concrete call: the repository assigns 42 and `AddHost` returns it. -/
theorem AddHost_spec_witness :
    (AddHost demoWorld newService newHostOne).1 = (42, none) :=
  (AddHost_spec demoWorld newService newHostOne).2.2.2.2.1 42 rfl

/-! ## The service: `Validate` -/

theorem Validate_lookups (w : World) (host : NewHost) :
    (∀ err, w.hostsRepository.HostByAddress host.Address = .error err →
      (Validate w host).2 = [Lookup.HostByAddress host.Address])
    ∧ (∀ ha, w.hostsRepository.HostByAddress host.Address = .ok ha → conflicts ha →
      (Validate w host).2 = [Lookup.HostByAddress host.Address])
    ∧ (∀ ha, w.hostsRepository.HostByAddress host.Address = .ok ha → ¬ conflicts ha →
      (Validate w host).2
        = [Lookup.HostByAddress host.Address, Lookup.HostByName host.Name]) := by
  refine ⟨fun err h => by simp [Validate, h], fun ha h hc => ?_, fun ha h hc => ?_⟩
  · unfold conflicts at hc
    simp [Validate, h, hc]
  · unfold conflicts at hc
    simp only [Validate, h]
    rw [if_neg hc]
    cases w.hostsRepository.HostByName host.Name with
    | error err => rfl
    | ok hn => by_cases hcn : hn.ID ≠ uuid.Nil ∧ hn.Status ≠ model.Status.FAILED <;> simp [hcn]

theorem Validate_answers (w : World) (host : NewHost) :
    ((Validate w host).2 = [Lookup.HostByAddress host.Address]
      ∨ (Validate w host).2
          = [Lookup.HostByAddress host.Address, Lookup.HostByName host.Name])
    ∧ (∀ l ∈ (Validate w host).2, ∀ err, l.answer w = .error err →
        (Validate w host).1 = some err)
    ∧ ((∀ l ∈ (Validate w host).2, ∀ err, l.answer w ≠ .error err) →
        ((Validate w host).1 = some Error.ErrAlreadyExists ↔
          ∃ l ∈ (Validate w host).2, ∃ h, l.answer w = .ok h ∧ conflicts h)
        ∧ ((Validate w host).1 = none ↔
          ∀ l ∈ (Validate w host).2, ∀ h, l.answer w = .ok h → ¬ conflicts h)) := by
  cases ha : w.hostsRepository.HostByAddress host.Address with
  | error err =>
    have hv : Validate w host = (some err, [Lookup.HostByAddress host.Address]) := by
      simp [Validate, ha]
    rw [hv]
    refine ⟨Or.inl rfl, ?_, ?_⟩
    · intro l hl e he
      simp only [List.mem_singleton] at hl
      subst hl
      simp only [Lookup.answer, ha, Except.error.injEq] at he
      simp [he]
    · intro hno
      exact absurd ha (hno _ (List.mem_singleton.mpr rfl) err)
  | ok a =>
    by_cases hca : conflicts a
    · have hv : Validate w host
          = (some Error.ErrAlreadyExists, [Lookup.HostByAddress host.Address]) := by
        have hca' := hca
        unfold conflicts at hca'
        simp [Validate, ha, hca']
      rw [hv]
      refine ⟨Or.inl rfl, ?_, ?_⟩
      · intro l hl e he
        simp only [List.mem_singleton] at hl
        subst hl
        simp [Lookup.answer, ha] at he
      · intro _
        refine ⟨⟨fun _ => ⟨_, List.mem_singleton.mpr rfl, a, ha, hca⟩, fun _ => rfl⟩,
          ⟨fun h => by simp at h, fun h => ?_⟩⟩
        exact absurd hca (h _ (List.mem_singleton.mpr rfl) a ha)
    · have hca' := hca
      unfold conflicts at hca'
      cases hn : w.hostsRepository.HostByName host.Name with
      | error err =>
        have hv : Validate w host
            = (some err, [Lookup.HostByAddress host.Address, Lookup.HostByName host.Name]) := by
          simp only [Validate, ha, hn]
          rw [if_neg hca']
        rw [hv]
        refine ⟨Or.inr rfl, ?_, ?_⟩
        · intro l hl e he
          simp only [List.mem_cons, List.mem_singleton, List.mem_nil_iff, or_false] at hl
          rcases hl with hl | hl
          · subst hl
            simp [Lookup.answer, ha] at he
          · subst hl
            simp only [Lookup.answer, hn, Except.error.injEq] at he
            simp [he]
        · intro hno
          exact absurd hn (hno (Lookup.HostByName host.Name) (by simp) err)
      | ok b =>
        by_cases hcb : conflicts b
        · have hv : Validate w host
              = (some Error.ErrAlreadyExists,
                  [Lookup.HostByAddress host.Address, Lookup.HostByName host.Name]) := by
            have hcb' := hcb
            unfold conflicts at hcb'
            simp only [Validate, ha, hn]
            rw [if_neg hca', if_pos hcb']
          rw [hv]
          refine ⟨Or.inr rfl, ?_, ?_⟩
          · intro l hl e he
            simp only [List.mem_cons, List.mem_singleton, List.mem_nil_iff, or_false] at hl
            rcases hl with hl | hl <;> subst hl
            · simp [Lookup.answer, ha] at he
            · simp [Lookup.answer, hn] at he
          · intro _
            refine ⟨⟨fun _ => ⟨Lookup.HostByName host.Name, by simp, b, hn, hcb⟩, fun _ => rfl⟩,
              ⟨fun h => by simp at h, fun h => ?_⟩⟩
            exact absurd hcb (h (Lookup.HostByName host.Name) (by simp) b hn)
        · have hv : Validate w host
              = (none, [Lookup.HostByAddress host.Address, Lookup.HostByName host.Name]) := by
            have hcb' := hcb
            unfold conflicts at hcb'
            simp only [Validate, ha, hn]
            rw [if_neg hca', if_neg hcb']
          rw [hv]
          refine ⟨Or.inr rfl, ?_, ?_⟩
          · intro l hl e he
            simp only [List.mem_cons, List.mem_singleton, List.mem_nil_iff, or_false] at hl
            rcases hl with hl | hl <;> subst hl
            · simp [Lookup.answer, ha] at he
            · simp [Lookup.answer, hn] at he
          · intro _
            refine ⟨⟨fun h => by simp at h, ?_⟩, ⟨fun _ => ?_, fun _ => rfl⟩⟩
            · rintro ⟨l, hl, h, hans, hc⟩
              simp only [List.mem_cons, List.mem_singleton, List.mem_nil_iff, or_false] at hl
              rcases hl with hl | hl <;> subst hl
              · simp only [Lookup.answer, ha, Except.ok.injEq] at hans
                exact absurd (hans ▸ hc) hca
              · simp only [Lookup.answer, hn, Except.ok.injEq] at hans
                exact absurd (hans ▸ hc) hcb
            · intro l hl h hans
              simp only [List.mem_cons, List.mem_singleton, List.mem_nil_iff, or_false] at hl
              rcases hl with hl | hl <;> subst hl
              · simp only [Lookup.answer, ha, Except.ok.injEq] at hans
                exact hans ▸ hca
              · simp only [Lookup.answer, hn, Except.ok.injEq] at hans
                exact hans ▸ hcb

/-- C3: `Validate` looks up the address of the new host and, unless that
lookup fails or finds an existing host that is not FAILED, its name, and makes
no other lookup. If one of the lookups made fails, `Validate` returns that same
error; otherwise it returns `ErrAlreadyExists` exactly when a lookup made
answers an existing host (identifier not `uuid.Nil`) whose status is not
FAILED, and returns no error when every host found is absent or FAILED. -/
theorem Validate_spec (w : World) (host : NewHost) :
    ((∀ err, w.hostsRepository.HostByAddress host.Address = .error err →
        (Validate w host).2 = [Lookup.HostByAddress host.Address])
      ∧ (∀ ha, w.hostsRepository.HostByAddress host.Address = .ok ha → conflicts ha →
        (Validate w host).2 = [Lookup.HostByAddress host.Address])
      ∧ (∀ ha, w.hostsRepository.HostByAddress host.Address = .ok ha → ¬ conflicts ha →
        (Validate w host).2
          = [Lookup.HostByAddress host.Address, Lookup.HostByName host.Name]))
    ∧ (∀ l ∈ (Validate w host).2, ∀ err, l.answer w = .error err →
        (Validate w host).1 = some err)
    ∧ ((∀ l ∈ (Validate w host).2, ∀ err, l.answer w ≠ .error err) →
        ((Validate w host).1 = some Error.ErrAlreadyExists ↔
          ∃ l ∈ (Validate w host).2, ∃ h, l.answer w = .ok h ∧ conflicts h)
        ∧ ((Validate w host).1 = none ↔
          ∀ l ∈ (Validate w host).2, ∀ h, l.answer w = .ok h → ¬ conflicts h)) :=
  ⟨Validate_lookups w host, (Validate_answers w host).2⟩

/-- C3 at concrete calls: a registration at the address of `hostOne`, which is
UP, is refused after the one lookup by address; a registration at a free
address whose lookup by name fails returns the error of that lookup; one at a
free address under the free name "fresh" is accepted after both lookups. -/
theorem Validate_spec_witness :
    Validate demoWorld newHostOne
        = (some Error.ErrAlreadyExists, [Lookup.HostByAddress "10.0.0.1"])
    ∧ (Validate demoWorld { newHostOne with Address := "10.0.0.9" }).1
        = some (Error.errorf "db")
    ∧ Validate demoWorld { newHostOne with Address := "10.0.0.9", Name := "fresh" }
        = (none, [Lookup.HostByAddress "10.0.0.9", Lookup.HostByName "fresh"]) :=
  ⟨by decide,
   (Validate_spec demoWorld { newHostOne with Address := "10.0.0.9" }).2.1
     (Lookup.HostByName "h1") (by decide) (Error.errorf "db") rfl,
   by decide⟩

/-! ## The service: `InstallHost` -/

theorem persisted_eq_updated (w : World) (hs : hostsService)
    (hrepo : ∀ host, w.hostsRepository.UpdateHost host = none) :
    persisted w hs = hs.updated := by
  unfold persisted
  exact List.filter_eq_self.mpr (fun host _ => by simp [hrepo host])

/-- With a bound on the readiness checks that the dialled channel meets (it is
ready at one of the checks allowed, or the dial fails), `InstallHost` returns. -/
theorem InstallHost_returns (w : World) (fuel : Nat) (hs : hostsService) (h : model.Host)
    (localNodePath : String)
    (hready : ∀ conn, w.grpc.Dial (hostAddress h.Address h.Port) = .ok conn →
      ∃ k, k < fuel ∧ w.grpc.GetState conn k = connectivity.State.Ready) :
    (InstallHost w fuel hs h localNodePath).isSome = true := by
  simp only [InstallHost]
  split
  · rfl
  · cases hd : w.grpc.Dial (hostAddress h.Address h.Port) with
    | error err =>
      rw [CreateConnection_error_of_dial _ _ _ _ _ err hd]
      rfl
    | ok conn =>
      rw [(CreateConnection_ok_or_none _ fuel _ _ _ conn hd).1 (hready conn hd)]
      rfl

/-- C2, as the code has it: with a repository whose `UpdateHost` always
succeeds, when `InstallHost` returns the last status persisted is never
INSTALLING, and when the installer succeeded it is UP, whether
`CreateConnection` succeeded or failed. -/
theorem InstallHost_last_status (w : World) (fuel : Nat) (hs hs' : hostsService)
    (h : model.Host) (localNodePath : String)
    (hrepo : ∀ host, w.hostsRepository.UpdateHost host = none)
    (hret : InstallHost w fuel hs h localNodePath = some hs') :
    (persisted w hs').getLast?.map (fun host => host.Status) ≠ some model.Status.INSTALLING
    ∧ (w.ExecuteAnsible
          { user := h.User, address := h.Address
            vars := { User := h.User, FcVersion := fcVersion, AnsiblePassword := h.Password
                      LocalNodePath := localNodePath, NodePort := toString h.Port } } = none →
        (persisted w hs').getLast? = some { h with Status := model.Status.UP }) := by
  rw [persisted_eq_updated w hs' hrepo]
  simp only [InstallHost, UpdateHostStatus_writes_UP] at hret
  split at hret
  · rename_i err herr
    simp only [Option.some.injEq] at hret
    subst hret
    simp [herr]
  · rename_i herr
    split at hret
    · exact absurd hret (by simp)
    · simp only [Option.some.injEq] at hret
      subst hret
      simp

/-- C2 at a concrete install: the installer succeeds, the channel is ready at
the fourth check, and the last status persisted is UP. -/
theorem InstallHost_last_status_witness :
    (persisted demoWorld
        { connManager :=
            { nodeToConn := [(5, 2)], dials := [(5, "10.0.0.1:9000")], closed := [] }
          added := []
          updated := [hostOne, hostOne]
          installs :=
            [{ user := "root", address := "10.0.0.1"
               vars := { User := "root", FcVersion := "0.17.0", AnsiblePassword := "pw"
                         LocalNodePath := "/opt/node", NodePort := "9000" } }] }).getLast?.map
        (fun host => host.Status) ≠ some model.Status.INSTALLING
    ∧ (demoWorld.ExecuteAnsible
          { user := hostOne.User, address := hostOne.Address
            vars := { User := hostOne.User, FcVersion := fcVersion
                      AnsiblePassword := hostOne.Password
                      LocalNodePath := "/opt/node", NodePort := toString hostOne.Port } } = none →
        (persisted demoWorld
          { connManager :=
              { nodeToConn := [(5, 2)], dials := [(5, "10.0.0.1:9000")], closed := [] }
            added := []
            updated := [hostOne, hostOne]
            installs :=
              [{ user := "root", address := "10.0.0.1"
                 vars := { User := "root", FcVersion := "0.17.0", AnsiblePassword := "pw"
                           LocalNodePath := "/opt/node", NodePort := "9000" } }] }).getLast?
          = some { hostOne with Status := model.Status.UP }) :=
  InstallHost_last_status demoWorld 5 newService _ hostOne "/opt/node" (fun _ => rfl)
    (by decide)

/-- C2 fails as stated: the installer succeeds on `hostBad`, `CreateConnection`
fails (the dial of "bad:1" is refused, no channel is installed), every
`UpdateHost` succeeds, and the last status persisted by `InstallHost` is UP,
not FAILED. -/
theorem InstallHost_UP_after_failed_connection :
    demoWorld.ExecuteAnsible
        { user := hostBad.User, address := hostBad.Address
          vars := { User := hostBad.User, FcVersion := fcVersion
                    AnsiblePassword := hostBad.Password
                    LocalNodePath := "/opt/node", NodePort := toString hostBad.Port } } = none
    ∧ (CreateConnection demoWorld.grpc 5 NewNodeConnectionManager hostBad.ID
          (hostAddress hostBad.Address hostBad.Port)).map (fun r => r.1)
        = some (.error (Error.errorf "dial"))
    ∧ (InstallHost demoWorld 5 newService hostBad "/opt/node").map
          (fun hs' => (persisted demoWorld hs').getLast?.map (fun host => host.Status))
        = some (some model.Status.UP)
    ∧ (InstallHost demoWorld 5 newService hostBad "/opt/node").map
          (fun hs' => GetConnection hs'.connManager hostBad.ID)
        = some none :=
  ⟨by decide, rfl, by decide, by decide⟩

/-! ## The service: `InitializeHosts` -/

theorem syncMap.Delete_of_fresh (m : List (UUID × ClientConn)) (key : UUID)
    (h : ∀ e ∈ m, e.1 ≠ key) : syncMap.Delete m key = m := by
  unfold syncMap.Delete
  exact List.filter_eq_self.mpr (fun e he => by simpa using h e he)

theorem syncMap.Load_of_unique (m : List (UUID × ClientConn)) (key : UUID) (value : ClientConn)
    (hmem : (key, value) ∈ m) (huniq : ∀ v, (key, v) ∈ m → v = value) :
    syncMap.Load m key = some value := by
  induction m with
  | nil => cases hmem
  | cons e rest ih =>
    obtain ⟨k, v⟩ := e
    by_cases hk : key = k
    · subst hk
      have hv : v = value := huniq v (List.mem_cons_self _ _)
      simp [syncMap.Load, List.lookup, hv]
    · have hne : (key == k) = false := by simpa using hk
      have hmem' : (key, value) ∈ rest := by
        rcases List.mem_cons.mp hmem with heq | hr
        · exact absurd (congrArg Prod.fst heq) hk
        · exact hr
      have := ih hmem' (fun v hv => huniq v (List.mem_cons_of_mem _ hv))
      simpa [syncMap.Load, List.lookup, hne] using this

theorem syncMap.Load_of_not_mem (m : List (UUID × ClientConn)) (key : UUID)
    (h : ∀ e ∈ m, e.1 ≠ key) : syncMap.Load m key = none := by
  unfold syncMap.Load
  rw [List.lookup_eq_none_iff]
  intro e he
  have hne : key ≠ e.1 := fun heq => h e he heq.symm
  simpa using hne

theorem dialErrors_length (env : Grpc) (hosts : List model.Host) :
    (dialErrors env hosts).length = hosts.countP (isUPFailing env) := by
  induction hosts with
  | nil => rfl
  | cons host rest ih =>
    unfold dialErrors at ih ⊢
    by_cases hup : host.Status = model.Status.UP
    · cases hd : env.Dial (hostAddress host.Address host.Port) <;>
        simp [List.filterMap_cons, List.countP_cons, isUPFailing, isUP, dialFails, hup, hd, ih]
    · simp [List.filterMap_cons, List.countP_cons, isUPFailing, isUP, hup, ih]

theorem dialled_length (env : Grpc) (hosts : List model.Host) :
    (dialled env hosts).length + hosts.countP (isUPFailing env) = hosts.countP isUP := by
  induction hosts with
  | nil => rfl
  | cons host rest ih =>
    unfold dialled at ih ⊢
    by_cases hup : host.Status = model.Status.UP
    · cases hd : env.Dial (hostAddress host.Address host.Port) <;>
        simp [List.filterMap_cons, List.countP_cons, isUPFailing, isUP, dialFails, hup, hd] <;>
        omega
    · simpa [List.filterMap_cons, List.countP_cons, isUPFailing, isUP, hup] using ih

theorem mem_dialled (env : Grpc) (hosts : List model.Host) (key : UUID) (value : ClientConn) :
    (key, value) ∈ dialled env hosts ↔
      ∃ host ∈ hosts, host.Status = model.Status.UP ∧ host.ID = key
        ∧ env.Dial (hostAddress host.Address host.Port) = .ok value := by
  unfold dialled
  rw [List.mem_filterMap]
  constructor
  · rintro ⟨host, hmem, h⟩
    by_cases hup : host.Status = model.Status.UP
    · rw [if_pos hup] at h
      cases hd : env.Dial (hostAddress host.Address host.Port) with
      | error err => simp [hd] at h
      | ok conn =>
        simp only [hd, Option.some.injEq, Prod.mk.injEq] at h
        exact ⟨host, hmem, hup, h.1, h.2 ▸ hd⟩
    · rw [if_neg hup] at h
      cases h
  · rintro ⟨host, hmem, hup, hid, hd⟩
    exact ⟨host, hmem, by simp [hup, hd, hid]⟩

theorem InitializeHosts.loop_spec (w : World) (fuel : Nat) (hosts : List model.Host)
    (errors : List Error) (n : Connections)
    (hready : ∀ host ∈ hosts, host.Status = model.Status.UP →
      ∀ conn, w.grpc.Dial (hostAddress host.Address host.Port) = .ok conn →
        ∃ k, k < fuel ∧ w.grpc.GetState conn k = connectivity.State.Ready)
    (hfresh : ∀ e ∈ n.nodeToConn, ∀ host ∈ hosts, host.Status = model.Status.UP →
      e.1 ≠ host.ID)
    (hnodup : ((hosts.filter isUP).map (fun host => host.ID)).Nodup) :
    InitializeHosts.loop w fuel hosts errors n
      = some (errors ++ dialErrors w.grpc hosts,
          { nodeToConn := (dialled w.grpc hosts).reverse ++ n.nodeToConn
            dials := n.dials ++ expectedDials hosts
            closed := n.closed }) := by
  induction hosts generalizing errors n with
  | nil => simp [InitializeHosts.loop, dialErrors, dialled, expectedDials]
  | cons host rest ih =>
    have hready' : ∀ x ∈ rest, x.Status = model.Status.UP →
        ∀ conn, w.grpc.Dial (hostAddress x.Address x.Port) = .ok conn →
          ∃ k, k < fuel ∧ w.grpc.GetState conn k = connectivity.State.Ready :=
      fun x hx => hready x (List.mem_cons_of_mem _ hx)
    by_cases hup : host.Status = model.Status.UP
    · have hupb : isUP host = true := by simp [isUP, hup]
      rw [List.filter_cons_of_pos hupb, List.map_cons, List.nodup_cons] at hnodup
      obtain ⟨hnot, hnodup'⟩ := hnodup
      have hfresh' : ∀ e ∈ n.nodeToConn, ∀ x ∈ rest, x.Status = model.Status.UP →
          e.1 ≠ x.ID := fun e he x hx => hfresh e he x (List.mem_cons_of_mem _ hx)
      cases hd : w.grpc.Dial (hostAddress host.Address host.Port) with
      | error err =>
        simp only [InitializeHosts.loop, hup, if_true,
          CreateConnection_error_of_dial _ fuel n host.ID _ err hd]
        rw [ih (errors ++ [err])
          { n with dials := n.dials ++ [(host.ID, hostAddress host.Address host.Port)] }
          hready' hfresh' hnodup']
        simp [dialErrors, dialled, expectedDials, List.filterMap_cons, hup, hd,
          List.filter_cons_of_pos hupb]
      | ok conn =>
        have hr := hready host (List.mem_cons_self _ _) hup conn hd
        have hdel : syncMap.Store n.nodeToConn host.ID conn = (host.ID, conn) :: n.nodeToConn := by
          unfold syncMap.Store
          rw [syncMap.Delete_of_fresh n.nodeToConn host.ID
            (fun e he => hfresh e he host (List.mem_cons_self _ _) hup)]
        simp only [InitializeHosts.loop, hup, if_true,
          (CreateConnection_ok_or_none _ fuel n host.ID _ conn hd).1 hr, hdel]
        rw [ih errors
          { nodeToConn := (host.ID, conn) :: n.nodeToConn
            dials := n.dials ++ [(host.ID, hostAddress host.Address host.Port)]
            closed := n.closed } hready' ?_ hnodup']
        · simp [dialErrors, dialled, expectedDials, List.filterMap_cons, hup, hd,
            List.filter_cons_of_pos hupb]
        · intro e he x hx hxup
          rcases List.mem_cons.mp he with heq | hmem
          · subst heq
            intro hid
            apply hnot
            exact List.mem_map.mpr ⟨x, List.mem_filter.mpr ⟨hx, by simp [isUP, hxup]⟩, hid.symm⟩
          · exact hfresh' e hmem x hx hxup
    · have hupb : isUP host = false := by simp [isUP, hup]
      have hupb' : ¬ (isUP host = true) := by simp [hupb]
      rw [List.filter_cons_of_neg hupb'] at hnodup
      simp only [InitializeHosts.loop, hup, if_false]
      rw [ih errors n hready'
        (fun e he x hx => hfresh e he x (List.mem_cons_of_mem _ hx)) hnodup]
      simp [dialErrors, dialled, expectedDials, List.filterMap_cons, hup,
        List.filter_cons_of_neg hupb']

theorem InitializeHosts.loop_stuck (w : World) (fuel : Nat) (host : model.Host)
    (rest : List model.Host) (errors : List Error) (n : Connections) (conn : ClientConn)
    (hup : host.Status = model.Status.UP)
    (hd : w.grpc.Dial (hostAddress host.Address host.Port) = .ok conn)
    (hnever : ∀ k, w.grpc.GetState conn k ≠ connectivity.State.Ready) :
    InitializeHosts.loop w fuel (host :: rest) errors n = none := by
  have hnone := (CreateConnection_ok_or_none w.grpc fuel n host.ID _ conn hd).2
    (fun k _ => hnever k)
  simp only [InitializeHosts.loop, hup, if_true, hnone]

/-- C5, as the code has it: when `ListHosts` answers a list of hosts, the pool
is empty, the hosts recorded UP have distinct identifiers and every channel
dialled for one of them is ready at one of the checks allowed,
`InitializeHosts` returns; with N hosts recorded UP of which M fail at the dial
it returns M errors and leaves N - M channels in the pool: the channel of every
UP host whose dial succeeded, none for an UP host whose dial failed.
`CreateConnection` is called once for every host recorded UP, in order,
whatever dial failed before, and for no other host. -/
theorem InitializeHosts_spec (w : World) (fuel : Nat) (hs : hostsService)
    (hosts : List model.Host)
    (hlist : w.hostsRepository.ListHosts = .ok hosts)
    (hempty : hs.connManager.nodeToConn = [])
    (hdistinct : ((hosts.filter isUP).map (fun host => host.ID)).Nodup)
    (hready : ∀ host ∈ hosts, host.Status = model.Status.UP →
      ∀ conn, w.grpc.Dial (hostAddress host.Address host.Port) = .ok conn →
        ∃ k, k < fuel ∧ w.grpc.GetState conn k = connectivity.State.Ready) :
    ∃ errors hs', InitializeHosts w fuel hs = some (errors, hs')
      ∧ errors.length = hosts.countP (isUPFailing w.grpc)
      ∧ hs'.connManager.nodeToConn.length
          = hosts.countP isUP - hosts.countP (isUPFailing w.grpc)
      ∧ (∀ host ∈ hosts, host.Status = model.Status.UP →
          ∀ conn, w.grpc.Dial (hostAddress host.Address host.Port) = .ok conn →
            GetConnection hs'.connManager host.ID = some conn)
      ∧ (∀ host ∈ hosts, host.Status = model.Status.UP →
          dialFails w.grpc (hostAddress host.Address host.Port) = true →
            GetConnection hs'.connManager host.ID = none)
      ∧ hs'.connManager.dials = hs.connManager.dials ++ expectedDials hosts := by
  have hloop := InitializeHosts.loop_spec w fuel hosts [] hs.connManager hready
    (by rw [hempty]; intro e he; cases he) hdistinct
  have hinj := List.inj_on_of_nodup_map hdistinct
  have hmemUP : ∀ host ∈ hosts, host.Status = model.Status.UP → host ∈ hosts.filter isUP :=
    fun host hmem hup => List.mem_filter.mpr ⟨hmem, by simp [isUP, hup]⟩
  refine ⟨[] ++ dialErrors w.grpc hosts,
    { hs with connManager :=
        { nodeToConn := (dialled w.grpc hosts).reverse ++ hs.connManager.nodeToConn
          dials := hs.connManager.dials ++ expectedDials hosts
          closed := hs.connManager.closed } },
    by simp only [InitializeHosts, hlist, hloop], ?_, ?_, ?_, ?_, rfl⟩
  · simpa using dialErrors_length w.grpc hosts
  · have := dialled_length w.grpc hosts
    simp only [hempty, List.append_nil, List.length_reverse]
    omega
  · intro host hmem hup conn hd
    rw [GetConnection_eq_Load]
    simp only [hempty, List.append_nil]
    apply syncMap.Load_of_unique
    · exact List.mem_reverse.mpr
        ((mem_dialled w.grpc hosts host.ID conn).mpr ⟨host, hmem, hup, rfl, hd⟩)
    · intro v hv
      obtain ⟨x, hx, hxup, hxid, hxd⟩ :=
        (mem_dialled w.grpc hosts host.ID v).mp (List.mem_reverse.mp hv)
      have hxeq : x = host := hinj (hmemUP x hx hxup) (hmemUP host hmem hup) hxid
      subst hxeq
      rw [hd] at hxd
      exact (Except.ok.inj hxd).symm
  · intro host hmem hup hfail
    rw [GetConnection_eq_Load]
    simp only [hempty, List.append_nil]
    apply syncMap.Load_of_not_mem
    intro e he hid
    obtain ⟨k, v⟩ := e
    obtain ⟨x, hx, hxup, hxid, hxd⟩ :=
      (mem_dialled w.grpc hosts k v).mp (List.mem_reverse.mp he)
    have hxeq : x = host := hinj (hmemUP x hx hxup) (hmemUP host hmem hup) (hxid.trans hid)
    subst hxeq
    simp [dialFails, hxd] at hfail

/-- C5 at a concrete start: of the three hosts listed, `hostOne` and `hostBad`
are UP and `hostDown` is not; the dial of `hostBad` fails. `InitializeHosts`
returns one error, leaves the one channel of `hostOne` in the pool, and has
called `CreateConnection` for the two hosts that are UP. -/
theorem InitializeHosts_spec_witness :
    ∃ errors hs', InitializeHosts demoWorld 5 newService = some (errors, hs')
      ∧ errors.length = 1
      ∧ hs'.connManager.nodeToConn.length = 1
      ∧ GetConnection hs'.connManager 5 = some 2
      ∧ GetConnection hs'.connManager 6 = none
      ∧ hs'.connManager.dials = [(5, "10.0.0.1:9000"), (6, "bad:1")] := by
  obtain ⟨errors, hs', h1, h2, h3, h4, h5, h6⟩ :=
    InitializeHosts_spec demoWorld 5 newService [hostOne, hostBad, hostDown] rfl rfl
      (by decide) (fun _ _ _ _ _ => ⟨3, by decide, rfl⟩)
  refine ⟨errors, hs', h1, ?_, ?_, ?_, ?_, ?_⟩
  · rw [h2]; decide
  · rw [h3]; decide
  · exact h4 hostOne (by simp) rfl 2 rfl
  · exact h5 hostBad (by simp) rfl rfl
  · rw [h6]; decide

/-- C5 fails as stated: the repository lists two hosts recorded UP, with
distinct identifiers, and no dial fails (N = 2, M = 0); the channel of the
first never becomes ready, that of the second is ready at once. Whatever the
number of readiness checks, `InitializeHosts` does not return: it returns no
list of errors, and the second host is never reached. -/
theorem InitializeHosts_never_returns :
    stuckWorld.hostsRepository.ListHosts = .ok [hostStuck, hostOne]
    ∧ [hostStuck, hostOne].countP isUP = 2
    ∧ [hostStuck, hostOne].countP (isUPFailing stuckWorld.grpc) = 0
    ∧ hostStuck.ID ≠ hostOne.ID
    ∧ (CreateConnection stuckWorld.grpc 1 NewNodeConnectionManager hostOne.ID
          (hostAddress hostOne.Address hostOne.Port)).map (fun r => r.1) = some (.ok 2)
    ∧ ¬ ∃ fuel, (InitializeHosts stuckWorld fuel newService).isSome = true := by
  refine ⟨rfl, by decide, by decide, by decide, rfl, ?_⟩
  rintro ⟨fuel, h⟩
  have hloop := InitializeHosts.loop_stuck stuckWorld fuel hostStuck [hostOne] []
    newService.connManager 7 rfl rfl (fun k => by simp [stuckWorld, stuckGrpc])
  have hnone : InitializeHosts stuckWorld fuel newService = none := by
    have hlist : stuckWorld.hostsRepository.ListHosts = .ok [hostStuck, hostOne] := rfl
    simp only [InitializeHosts, hlist, hloop]
  rw [hnone] at h
  exact Bool.noConfusion h

end Catapult
